import Mathlib

/-!
Shallow embedding of the `cb` circular buffer library (diffstorm/cb).

The repository contains two implementations over the same state layout:
the legacy one in `cb.c` (boolean success surface) and the enhanced one
in `src/cb.c` (result-code surface, bulk, timeout and statistics
variants).  Both operate on a struct holding a storage array `buf`, a
capacity `size`, a write cursor `in`, a read cursor `out` and an
`overwrite` flag.  Here the struct is a Lean structure; the storage
array is a `List`, the cursors are `Nat` (the C index type is unsigned
and every reachable cursor value stays below `size`, so no wrap-around
of the machine integer itself ever occurs in the modelled paths), and
pointer-validity checks in the C code fall away because states are
passed by value.  The C write `*itemOut = ...` is modelled by an
`Option CbItem` component of the result: `none` means the output
location was left untouched.
-/

/-- `CbItem` is the element type (default `uint8_t` in the source).  The
buffer code never computes on items, it only copies them, so items are
modelled as plain naturals.  The C index type `CbIndex` is unsigned and
every reachable cursor value stays below `size`, so indices are plain
`Nat` here as well. -/
abbrev CbItem := Nat

/-- The result-code taxonomy of the enhanced implementation
(`cb_result_t` in `src/cb.h`). -/
inductive cb_result_t where
  | CB_SUCCESS
  | CB_ERROR_NULL_POINTER
  | CB_ERROR_INVALID_SIZE
  | CB_ERROR_BUFFER_FULL
  | CB_ERROR_BUFFER_EMPTY
  | CB_ERROR_INVALID_OFFSET
  | CB_ERROR_INVALID_COUNT
  | CB_ERROR_BUFFER_CORRUPTED
  | CB_ERROR_TIMEOUT
  | CB_ERROR_INVALID_PARAMETER
  deriving DecidableEq, Repr

open cb_result_t

/-- The buffer struct `cb`: storage, capacity, write cursor `in`
(`inIdx` here, `in` is reserved in Lean), read cursor `out` (`outIdx`)
and the overwrite flag. -/
structure cb where
  buf : List CbItem
  size : Nat
  inIdx : Nat
  outIdx : Nat
  overwrite : Bool
  deriving DecidableEq, Repr

/-! ## Enhanced implementation (`src/cb.c`), result-code surface -/

/-- `cb_init_ex` (src/cb.c:170): zero both cursors and the flag; a zero
`bufferLength` still initializes all fields but reports
`CB_ERROR_INVALID_SIZE`. -/
def cb_init_ex (bufferStorage : List CbItem) (bufferLength : Nat) :
    cb_result_t × cb :=
  if bufferLength = 0 then
    (CB_ERROR_INVALID_SIZE,
     { buf := bufferStorage, size := 0, inIdx := 0, outIdx := 0, overwrite := false })
  else
    (CB_SUCCESS,
     { buf := bufferStorage, size := bufferLength, inIdx := 0, outIdx := 0, overwrite := false })

/-- `cb_freeSpace` (src/cb.c:224): wrap-aware free-slot count, `0` for a
degenerate buffer. -/
def cb_freeSpace (b : cb) : Nat :=
  if b.size = 0 then 0
  else if b.inIdx ≥ b.outIdx then (b.size - 1) - (b.inIdx - b.outIdx)
  else b.outIdx - b.inIdx - 1

/-- `cb_dataSize` (src/cb.c:262): wrap-aware occupied-slot count, `0`
for a degenerate buffer. -/
def cb_dataSize (b : cb) : Nat :=
  if b.size = 0 then 0
  else if b.inIdx ≥ b.outIdx then b.inIdx - b.outIdx
  else b.size - b.outIdx + b.inIdx

/-- `cb_sanity_check` (src/cb.c:300): nonzero capacity, cursors in
range, derived occupancy below capacity.  The storage-pointer null check
of the C code has no counterpart here. -/
def cb_sanity_check (b : cb) : Bool :=
  if b.size = 0 then false
  else if b.inIdx ≥ b.size then false
  else if b.outIdx ≥ b.size then false
  else
    let data_size := if b.inIdx ≥ b.outIdx then b.inIdx - b.outIdx
                     else b.size - b.outIdx + b.inIdx
    if data_size ≥ b.size then false
    else true

/-- `cb_insert_ex` (src/cb.c:359): reject a degenerate buffer, detect
full via `next_in == out`, under overwrite advance `out` first, then
store the item and publish the new `in`. -/
def cb_insert_ex (b : cb) (item : CbItem) : cb_result_t × cb :=
  if b.size = 0 then (CB_ERROR_INVALID_SIZE, b)
  else
    let current_in := b.inIdx
    let next_in := (current_in + 1) % b.size
    let current_out := b.outIdx
    if next_in = current_out then
      if b.overwrite then
        let b1 : cb := { b with outIdx := (current_out + 1) % b.size }
        (CB_SUCCESS, { b1 with buf := b1.buf.set current_in item, inIdx := next_in })
      else
        (CB_ERROR_BUFFER_FULL, b)
    else
      (CB_SUCCESS, { b with buf := b.buf.set current_in item, inIdx := next_in })

/-- `cb_remove_ex` (src/cb.c:402): reject a degenerate buffer, detect
empty via `out == in`, else copy out `buf[out]` and advance `out`. -/
def cb_remove_ex (b : cb) : cb_result_t × cb × Option CbItem :=
  if b.size = 0 then (CB_ERROR_INVALID_SIZE, b, none)
  else
    let current_out := b.outIdx
    let current_in := b.inIdx
    if current_out = current_in then (CB_ERROR_BUFFER_EMPTY, b, none)
    else
      (CB_SUCCESS, { b with outIdx := (current_out + 1) % b.size },
       some (b.buf.getD current_out 0))

/-- `cb_peek_ex` (src/cb.c:441): compute availability from the two
cursors, reject an out-of-range offset, else copy out
`buf[(out + offset) % size]` leaving the state untouched. -/
def cb_peek_ex (b : cb) (offset : Nat) : cb_result_t × cb × Option CbItem :=
  if b.size = 0 then (CB_ERROR_INVALID_SIZE, b, none)
  else
    let current_out := b.outIdx
    let current_in := b.inIdx
    let available := if current_in ≥ current_out then current_in - current_out
                     else b.size - current_out + current_in
    if offset ≥ available then (CB_ERROR_INVALID_OFFSET, b, none)
    else (CB_SUCCESS, b, some (b.buf.getD ((current_out + offset) % b.size) 0))

/-- Loop body of `cb_insert_bulk_ex` (src/cb.c:502).  The C loop runs
while `*inserted < count`; the fuel argument equals `count - inserted`,
so the translation is structural.  On a non-success result the loop
breaks recording that result (the source distinguishes the
full-without-overwrite break from the generic break, but both record
the returned code). -/
def cb_insert_bulk_loop (items : List CbItem) (ow : Bool) :
    cb → Nat → Nat → cb × Nat × cb_result_t
  | b, inserted, 0 => (b, inserted, CB_SUCCESS)
  | b, inserted, fuel + 1 =>
    let r := cb_insert_ex b (items.getD inserted 0)
    if r.1 = CB_SUCCESS then
      cb_insert_bulk_loop items ow r.2 (inserted + 1) fuel
    else if r.1 = CB_ERROR_BUFFER_FULL ∧ ¬ow then
      (r.2, inserted, CB_ERROR_BUFFER_FULL)
    else
      (r.2, inserted, r.1)

/-- `cb_insert_bulk_ex` (src/cb.c:475): parameter checks, then the
sequential loop; result is `CB_SUCCESS` when anything was transferred,
else the recorded error.  Returns (result, final state, `*inserted`). -/
def cb_insert_bulk_ex (b : cb) (items : List CbItem) (count : Nat) :
    cb_result_t × cb × Nat :=
  if b.size = 0 then (CB_ERROR_INVALID_SIZE, b, 0)
  else if count = 0 then (CB_ERROR_INVALID_COUNT, b, 0)
  else
    let ow := b.overwrite
    let res := cb_insert_bulk_loop items ow b 0 count
    if res.2.1 > 0 then (CB_SUCCESS, res.1, res.2.1)
    else (res.2.2, res.1, res.2.1)

/-- Loop body of `cb_remove_bulk_ex` (src/cb.c:551); fuel equals
`count - removed`.  Outputs are accumulated in order. -/
def cb_remove_bulk_loop :
    cb → List CbItem → Nat → cb × List CbItem × cb_result_t
  | b, acc, 0 => (b, acc, CB_SUCCESS)
  | b, acc, fuel + 1 =>
    let r := cb_remove_ex b
    if r.1 = CB_SUCCESS then
      cb_remove_bulk_loop r.2.1 (acc ++ r.2.2.toList) fuel
    else if r.1 = CB_ERROR_BUFFER_EMPTY then
      (r.2.1, acc, CB_ERROR_BUFFER_EMPTY)
    else
      (r.2.1, acc, r.1)

/-- `cb_remove_bulk_ex` (src/cb.c:525): parameter checks, then the
sequential loop.  Returns (result, final state, removed items in
order). -/
def cb_remove_bulk_ex (b : cb) (count : Nat) :
    cb_result_t × cb × List CbItem :=
  if b.size = 0 then (CB_ERROR_INVALID_SIZE, b, [])
  else if count = 0 then (CB_ERROR_INVALID_COUNT, b, [])
  else
    let res := cb_remove_bulk_loop b [] count
    if res.2.1.length > 0 then (CB_SUCCESS, res.1, res.2.1)
    else (res.2.2, res.1, res.2.1)

/-- `cb_set_overwrite_ex` (src/cb.c:572). -/
def cb_set_overwrite_ex (b : cb) (enable : Bool) : cb_result_t × cb :=
  (CB_SUCCESS, { b with overwrite := enable })

/-- Retry loop of `cb_insert_timeout_ex` (src/cb.c:725).  The sleep
interval is 1 ms and `elapsed_ms` advances by exactly that interval per
iteration, so the loop performs exactly `timeout_ms` retries; the fuel
argument is `timeout_ms - elapsed_ms`.  Real time is not modelled, only
the retry control flow. -/
def cb_insert_timeout_loop (item : CbItem) :
    cb → Nat → cb_result_t × cb
  | b, 0 => (CB_ERROR_TIMEOUT, b)
  | b, fuel + 1 =>
    let r := cb_insert_ex b item
    if r.1 = CB_SUCCESS ∨ r.1 ≠ CB_ERROR_BUFFER_FULL then r
    else cb_insert_timeout_loop item r.2 fuel

/-- `cb_insert_timeout_ex` (src/cb.c:708): try once; return immediately
on success, on a zero budget, or on any non-full failure; otherwise
poll with 1 ms fuel steps until the budget is spent, then report
`CB_ERROR_TIMEOUT`. -/
def cb_insert_timeout_ex (b : cb) (item : CbItem) (timeout_ms : Nat) :
    cb_result_t × cb :=
  let r := cb_insert_ex b item
  if r.1 = CB_SUCCESS ∨ timeout_ms = 0 ∨ r.1 ≠ CB_ERROR_BUFFER_FULL then r
  else cb_insert_timeout_loop item r.2 timeout_ms

/-- Retry loop of `cb_remove_timeout_ex` (src/cb.c:762), fuel as in
`cb_insert_timeout_loop`. -/
def cb_remove_timeout_loop :
    cb → Nat → cb_result_t × cb × Option CbItem
  | b, 0 => (CB_ERROR_TIMEOUT, b, none)
  | b, fuel + 1 =>
    let r := cb_remove_ex b
    if r.1 = CB_SUCCESS ∨ r.1 ≠ CB_ERROR_BUFFER_EMPTY then r
    else cb_remove_timeout_loop r.2.1 fuel

/-- `cb_remove_timeout_ex` (src/cb.c:740): try once; return immediately
on success, on a zero budget, or on any non-empty failure; otherwise
poll until the budget is spent, then report `CB_ERROR_TIMEOUT`. -/
def cb_remove_timeout_ex (b : cb) (timeout_ms : Nat) :
    cb_result_t × cb × Option CbItem :=
  let r := cb_remove_ex b
  if r.1 = CB_SUCCESS ∨ timeout_ms = 0 ∨ r.1 ≠ CB_ERROR_BUFFER_EMPTY then r
  else cb_remove_timeout_loop r.2.1 timeout_ms

/-! ## Legacy implementation (`cb.c`), boolean surface -/

namespace legacy

/-- Legacy `cb_init` (cb.c:48): only acts when the length is positive;
a zero-length call leaves the struct untouched. -/
def cb_init (b : cb) (bufferStorage : List CbItem) (bufferLength : Nat) : cb :=
  if bufferLength > 0 then
    { buf := bufferStorage, size := bufferLength, inIdx := 0, outIdx := 0, overwrite := false }
  else b

/-- Legacy `cb_freeSpace` (cb.c:59): no zero-capacity guard. -/
def cb_freeSpace (b : cb) : Nat :=
  if b.inIdx ≥ b.outIdx then (b.size - 1) - (b.inIdx - b.outIdx)
  else b.outIdx - b.inIdx - 1

/-- Legacy `cb_dataSize` (cb.c:72): no zero-capacity guard. -/
def cb_dataSize (b : cb) : Nat :=
  if b.inIdx ≥ b.outIdx then b.inIdx - b.outIdx
  else b.size - b.outIdx + b.inIdx

/-- Legacy `cb_insert` (cb.c:105).  The C code computes
`(current_in + 1) % size` without a zero-capacity guard; the modelled
paths only use it for `size ≥ 1`. -/
def cb_insert (b : cb) (item : CbItem) : Bool × cb :=
  let current_in := b.inIdx
  let next_in := (current_in + 1) % b.size
  let current_out := b.outIdx
  if next_in = current_out then
    if b.overwrite then
      let b1 : cb := { b with outIdx := (current_out + 1) % b.size }
      (true, { b1 with buf := b1.buf.set current_in item, inIdx := next_in })
    else
      (false, b)
  else
    (true, { b with buf := b.buf.set current_in item, inIdx := next_in })

/-- Legacy `cb_remove` (cb.c:131). -/
def cb_remove (b : cb) : Bool × cb × Option CbItem :=
  let current_out := b.outIdx
  let current_in := b.inIdx
  if current_out = current_in then (false, b, none)
  else
    (true, { b with outIdx := (current_out + 1) % b.size },
     some (b.buf.getD current_out 0))

/-- Legacy `cb_peek` (cb.c:148). -/
def cb_peek (b : cb) (offset : Nat) : Bool × Option CbItem :=
  let current_out := b.outIdx
  let current_in := b.inIdx
  let available := if current_in ≥ current_out then current_in - current_out
                   else b.size - current_out + current_in
  if offset ≥ available then (false, none)
  else (true, some (b.buf.getD ((current_out + offset) % b.size) 0))

end legacy

/-! ## Well-formedness and abstraction to a list -/

/-- A buffer is well formed when the capacity is positive, both cursors
are in range and the storage really has `size` slots.  `cb_init_ex`
with a positive length establishes this and every operation preserves
it. -/
def wf (b : cb) : Prop :=
  1 ≤ b.size ∧ b.inIdx < b.size ∧ b.outIdx < b.size ∧ b.buf.length = b.size

instance : DecidablePred wf := fun b => by unfold wf; infer_instance

/-- The abstract contents of the buffer: the occupied slots read from
the read cursor forward, oldest first. -/
def toList (b : cb) : List CbItem :=
  (List.range (cb_dataSize b)).map (fun i => b.buf.getD ((b.outIdx + i) % b.size) 0)

/-! ## Sequential insert and remove chains (for the FIFO property) -/

/-- `k` consecutive legacy `cb_insert` calls; the flag collects whether
all of them reported success. -/
def cb_insert_seq (b : cb) : List CbItem → Bool × cb
  | [] => (true, b)
  | e :: es =>
    let r := legacy.cb_insert b e
    let rest := cb_insert_seq r.2 es
    (r.1 && rest.1, rest.2)

/-- `n` consecutive legacy `cb_remove` calls; outputs are collected in
call order, the flag collects whether all of them reported success. -/
def cb_remove_seq (b : cb) : Nat → List (Option CbItem) × cb × Bool
  | 0 => ([], b, true)
  | n + 1 =>
    let r := legacy.cb_remove b
    let rest := cb_remove_seq r.2.1 n
    (r.2.2 :: rest.1, rest.2.1, r.1 && rest.2.2)

/-! ## Arbitrary operation sequences (for the index invariant) -/

/-- One completed API call, as far as it mutates the buffer. -/
inductive CbOp where
  | opInsert (item : CbItem)
  | opRemove
  | opPeek (offset : Nat)
  | opInsertBulk (items : List CbItem) (count : Nat)
  | opRemoveBulk (count : Nat)
  | opSetOverwrite (enable : Bool)

/-- The buffer state after one completed operation. -/
def applyOp (b : cb) : CbOp → cb
  | .opInsert x => (cb_insert_ex b x).2
  | .opRemove => (cb_remove_ex b).2.1
  | .opPeek offset => (cb_peek_ex b offset).2.1
  | .opInsertBulk items count => (cb_insert_bulk_ex b items count).2.1
  | .opRemoveBulk count => (cb_remove_bulk_ex b count).2.1
  | .opSetOverwrite e => (cb_set_overwrite_ex b e).2

/-- The buffer state after a whole sequence of completed operations. -/
def runOps (b : cb) (ops : List CbOp) : cb :=
  ops.foldl applyOp b

/-! ## Bulk insert as iterated single insert (refinement target) -/

/-- Reference function written from the spec words: "a sequential
application of single-element insert up to `count` times, stopping
early at the first failure", returning the final state and the count
actually transferred.  It is the comparison point for the refinement of
`cb_insert_bulk_ex`. -/
def insertOneByOne (b : cb) : List CbItem → cb × Nat
  | [] => (b, 0)
  | e :: es =>
    let r := cb_insert_ex b e
    if r.1 = CB_SUCCESS then
      let rest := insertOneByOne r.2 es
      (rest.1, rest.2 + 1)
    else (r.2, 0)

/-! ## Concrete buffers used as witness inputs -/

/-- Empty capacity-3 buffer. -/
def bufA : cb := { buf := [0, 0, 0], size := 3, inIdx := 0, outIdx := 0, overwrite := false }

/-- Capacity-8 buffer holding 0..6 (full), overwrite enabled. -/
def bufF8 : cb := { buf := [0, 1, 2, 3, 4, 5, 6, 0], size := 8, inIdx := 7, outIdx := 0, overwrite := true }

/-- Capacity-1 buffer: simultaneously empty and full. -/
def bufOne : cb := { buf := [0], size := 1, inIdx := 0, outIdx := 0, overwrite := false }

/-- Degenerate capacity-0 buffer, as produced by `cb_init_ex _ 0`. -/
def bufZero : cb := { buf := [], size := 0, inIdx := 0, outIdx := 0, overwrite := false }

/-- Empty capacity-5 buffer. -/
def bufFive : cb := { buf := [0, 0, 0, 0, 0], size := 5, inIdx := 0, outIdx := 0, overwrite := false }

/-- Capacity-4 buffer with nontrivial cursors, holding one element. -/
def bufFour : cb := { buf := [9, 8, 7, 6], size := 4, inIdx := 2, outIdx := 1, overwrite := false }

/-- A mixed operation sequence exercising every operation kind. -/
def opsW : List CbOp :=
  [CbOp.opInsert 5, CbOp.opInsert 6, CbOp.opRemove, CbOp.opPeek 0,
   CbOp.opInsertBulk [1, 2, 3] 3, CbOp.opRemoveBulk 2, CbOp.opSetOverwrite true]

/-! ## Arithmetic and list helper lemmas -/

lemma getD_set_self (l : List CbItem) (i x d : Nat) (h : i < l.length) :
    (l.set i x).getD i d = x := by
  simp [List.getD_eq_getElem?_getD, List.getElem?_set_self, h]

lemma getD_set_ne (l : List CbItem) (i j x d : Nat) (h : i ≠ j) :
    (l.set i x).getD j d = l.getD j d := by
  simp [List.getD_eq_getElem?_getD, List.getElem?_set_ne h]

lemma add_mod_inj (o i j n : Nat) (hi : i < n) (hj : j < n)
    (h : (o + i) % n = (o + j) % n) : i = j := by
  have h2 : i ≡ j [MOD n] := Nat.ModEq.add_left_cancel rfl h
  exact h2.eq_of_lt_of_lt hi hj

lemma cb_dataSize_lt (b : cb) (h : wf b) : cb_dataSize b < b.size := by
  obtain ⟨h1, h2, h3, h4⟩ := h
  unfold cb_dataSize
  split_ifs <;> omega

lemma out_add_dataSize (b : cb) (h : wf b) :
    (b.outIdx + cb_dataSize b) % b.size = b.inIdx := by
  obtain ⟨h1, h2, h3, h4⟩ := h
  unfold cb_dataSize
  split_ifs with hz hge
  · omega
  · have he : b.outIdx + (b.inIdx - b.outIdx) = b.inIdx := by omega
    rw [he, Nat.mod_eq_of_lt h2]
  · have he : b.outIdx + (b.size - b.outIdx + b.inIdx) = b.size + b.inIdx := by omega
    rw [he, Nat.add_mod_left, Nat.mod_eq_of_lt h2]

lemma full_iff (b : cb) (h : wf b) :
    ((b.inIdx + 1) % b.size = b.outIdx) ↔ cb_dataSize b = b.size - 1 := by
  obtain ⟨h1, h2, h3, h4⟩ := h
  unfold cb_dataSize
  rcases Nat.lt_or_ge (b.inIdx + 1) b.size with hlt | hge
  · rw [Nat.mod_eq_of_lt hlt]
    split_ifs <;> omega
  · have he : b.inIdx + 1 = b.size := by omega
    rw [he, Nat.mod_self]
    split_ifs <;> omega

lemma empty_iff (b : cb) (h : wf b) :
    (b.outIdx = b.inIdx) ↔ cb_dataSize b = 0 := by
  obtain ⟨h1, h2, h3, h4⟩ := h
  unfold cb_dataSize
  split_ifs <;> omega

/-! ## Single-step specifications of insert and remove -/

lemma insert_not_full_eq (b : cb) (x : CbItem) (h : wf b)
    (hnf : cb_dataSize b < b.size - 1) :
    cb_insert_ex b x =
      (CB_SUCCESS, { b with buf := b.buf.set b.inIdx x, inIdx := (b.inIdx + 1) % b.size }) := by
  have hfull := full_iff b h
  obtain ⟨h1, h2, h3, h4⟩ := h
  have hsz : ¬(b.size = 0) := by omega
  have hc : ¬((b.inIdx + 1) % b.size = b.outIdx) := fun hcc => by
    have := hfull.mp hcc; omega
  simp only [cb_insert_ex, if_neg hsz, if_neg hc]

lemma insert_full_no_ow_eq (b : cb) (x : CbItem) (h : wf b)
    (how : b.overwrite = false) (hfull : cb_dataSize b = b.size - 1) :
    cb_insert_ex b x = (CB_ERROR_BUFFER_FULL, b) := by
  have hfi := full_iff b h
  obtain ⟨h1, h2, h3, h4⟩ := h
  have hsz : ¬(b.size = 0) := by omega
  have hc : (b.inIdx + 1) % b.size = b.outIdx := hfi.mpr hfull
  simp [cb_insert_ex, if_neg hsz, if_pos hc, how]

lemma insert_full_ow_eq (b : cb) (x : CbItem) (h : wf b)
    (how : b.overwrite = true) (hfull : cb_dataSize b = b.size - 1) :
    cb_insert_ex b x =
      (CB_SUCCESS,
       { b with buf := b.buf.set b.inIdx x, inIdx := (b.inIdx + 1) % b.size,
                outIdx := (b.outIdx + 1) % b.size }) := by
  have hfi := full_iff b h
  obtain ⟨h1, h2, h3, h4⟩ := h
  have hsz : ¬(b.size = 0) := by omega
  have hc : (b.inIdx + 1) % b.size = b.outIdx := hfi.mpr hfull
  simp [cb_insert_ex, if_neg hsz, if_pos hc, how]

lemma remove_nonempty_eq (b : cb) (h : wf b) (hne : b.outIdx ≠ b.inIdx) :
    cb_remove_ex b =
      (CB_SUCCESS, { b with outIdx := (b.outIdx + 1) % b.size },
       some (b.buf.getD b.outIdx 0)) := by
  obtain ⟨h1, h2, h3, h4⟩ := h
  have hsz : ¬(b.size = 0) := by omega
  simp only [cb_remove_ex, if_neg hsz, if_neg hne]

lemma remove_empty_eq (b : cb) (h : wf b) (he : b.outIdx = b.inIdx) :
    cb_remove_ex b = (CB_ERROR_BUFFER_EMPTY, b, none) := by
  obtain ⟨h1, h2, h3, h4⟩ := h
  have hsz : ¬(b.size = 0) := by omega
  simp only [cb_remove_ex, if_neg hsz, if_pos he]

/-! ## Preservation of well-formedness and evolution of the contents -/

lemma toList_length (b : cb) : (toList b).length = cb_dataSize b := by
  simp [toList]

lemma wf_write (b : cb) (x : CbItem) (h : wf b) :
    wf { b with buf := b.buf.set b.inIdx x, inIdx := (b.inIdx + 1) % b.size } := by
  obtain ⟨h1, h2, h3, h4⟩ := h
  exact ⟨h1, Nat.mod_lt _ (by omega), h3, by simp [h4]⟩

lemma wf_advance_out (b : cb) (h : wf b) :
    wf { b with outIdx := (b.outIdx + 1) % b.size } := by
  obtain ⟨h1, h2, h3, h4⟩ := h
  exact ⟨h1, h2, Nat.mod_lt _ (by omega), h4⟩

lemma wf_write_ow (b : cb) (x : CbItem) (h : wf b) :
    wf { b with buf := b.buf.set b.inIdx x, inIdx := (b.inIdx + 1) % b.size,
                outIdx := (b.outIdx + 1) % b.size } := by
  obtain ⟨h1, h2, h3, h4⟩ := h
  exact ⟨h1, Nat.mod_lt _ (by omega), Nat.mod_lt _ (by omega), by simp [h4]⟩

lemma dataSize_write (b : cb) (x : CbItem) (h : wf b)
    (hnf : cb_dataSize b < b.size - 1) :
    cb_dataSize { b with buf := b.buf.set b.inIdx x, inIdx := (b.inIdx + 1) % b.size }
      = cb_dataSize b + 1 := by
  obtain ⟨h1, h2, h3, h4⟩ := h
  unfold cb_dataSize at *
  dsimp only
  rcases Nat.lt_or_ge (b.inIdx + 1) b.size with hlt | hge
  · rw [Nat.mod_eq_of_lt hlt]
    split_ifs at * <;> omega
  · have he : b.inIdx + 1 = b.size := by omega
    rw [he, Nat.mod_self]
    split_ifs at * <;> omega

lemma dataSize_advance_out (b : cb) (h : wf b) (hne : 1 ≤ cb_dataSize b) :
    cb_dataSize { b with outIdx := (b.outIdx + 1) % b.size } = cb_dataSize b - 1 := by
  obtain ⟨h1, h2, h3, h4⟩ := h
  unfold cb_dataSize at *
  dsimp only
  rcases Nat.lt_or_ge (b.outIdx + 1) b.size with hlt | hge
  · rw [Nat.mod_eq_of_lt hlt]
    split_ifs at * <;> omega
  · have he : b.outIdx + 1 = b.size := by omega
    rw [he, Nat.mod_self]
    split_ifs at * <;> omega

lemma toList_write (b : cb) (x : CbItem) (h : wf b)
    (hnf : cb_dataSize b < b.size - 1) :
    toList { b with buf := b.buf.set b.inIdx x, inIdx := (b.inIdx + 1) % b.size }
      = toList b ++ [x] := by
  have hw := dataSize_write b x h hnf
  have hoad := out_add_dataSize b h
  have hlt := cb_dataSize_lt b h
  obtain ⟨h1, h2, h3, h4⟩ := h
  unfold toList
  rw [hw, List.range_succ, List.map_append]
  congr 1
  · apply List.map_congr_left
    intro i hi
    simp only [List.mem_range] at hi
    show (b.buf.set b.inIdx x).getD ((b.outIdx + i) % b.size) 0
      = b.buf.getD ((b.outIdx + i) % b.size) 0
    apply getD_set_ne
    intro heq
    have : i = cb_dataSize b := by
      apply add_mod_inj b.outIdx i (cb_dataSize b) b.size (by omega) (by omega)
      rw [hoad, ← heq]
    omega
  · show [(b.buf.set b.inIdx x).getD ((b.outIdx + cb_dataSize b) % b.size) 0] = [x]
    rw [hoad, getD_set_self b.buf b.inIdx x 0 (by omega)]

lemma toList_advance_out (b : cb) (h : wf b) (hne : 1 ≤ cb_dataSize b) :
    toList { b with outIdx := (b.outIdx + 1) % b.size } = (toList b).tail := by
  have hda := dataSize_advance_out b h hne
  obtain ⟨d', hd⟩ : ∃ d', cb_dataSize b = d' + 1 := ⟨cb_dataSize b - 1, by omega⟩
  obtain ⟨h1, h2, h3, h4⟩ := h
  unfold toList
  rw [hda, hd, Nat.add_sub_cancel, List.range_succ_eq_map]
  simp only [List.map_cons, List.tail_cons, List.map_map]
  apply List.map_congr_left
  intro i hi
  show b.buf.getD (((b.outIdx + 1) % b.size + i) % b.size) 0
    = b.buf.getD ((b.outIdx + (i + 1)) % b.size) 0
  rw [Nat.mod_add_mod]
  have he : b.outIdx + 1 + i = b.outIdx + (i + 1) := by omega
  rw [he]

lemma toList_headD (b : cb) (h : wf b) (hne : 1 ≤ cb_dataSize b) :
    (toList b).headD 0 = b.buf.getD b.outIdx 0 := by
  obtain ⟨d', hd⟩ : ∃ d', cb_dataSize b = d' + 1 := ⟨cb_dataSize b - 1, by omega⟩
  obtain ⟨h1, h2, h3, h4⟩ := h
  unfold toList
  rw [hd, List.range_succ_eq_map]
  simp only [List.map_cons, List.headD_cons]
  rw [Nat.add_zero, Nat.mod_eq_of_lt h3]

lemma insert_fail_state (b : cb) (x : CbItem)
    (h : (cb_insert_ex b x).1 ≠ CB_SUCCESS) : (cb_insert_ex b x).2 = b := by
  unfold cb_insert_ex at h ⊢
  dsimp only at h ⊢
  split_ifs at h ⊢ <;> first | rfl | (exact absurd rfl h)

lemma insert_size (b : cb) (x : CbItem) : (cb_insert_ex b x).2.size = b.size := by
  unfold cb_insert_ex
  dsimp only
  split_ifs <;> rfl

lemma insert_overwrite (b : cb) (x : CbItem) :
    (cb_insert_ex b x).2.overwrite = b.overwrite := by
  unfold cb_insert_ex
  dsimp only
  split_ifs <;> rfl

lemma remove_size (b : cb) : (cb_remove_ex b).2.1.size = b.size := by
  unfold cb_remove_ex
  dsimp only
  split_ifs <;> rfl

lemma remove_overwrite (b : cb) : (cb_remove_ex b).2.1.overwrite = b.overwrite := by
  unfold cb_remove_ex
  dsimp only
  split_ifs <;> rfl

lemma peek_state (b : cb) (offset : Nat) : (cb_peek_ex b offset).2.1 = b := by
  unfold cb_peek_ex
  dsimp only
  split_ifs <;> rfl

lemma wf_insert (b : cb) (x : CbItem) (h : wf b) : wf (cb_insert_ex b x).2 := by
  rcases Nat.lt_or_ge (cb_dataSize b) (b.size - 1) with hnf | hf
  · rw [insert_not_full_eq b x h hnf]
    exact wf_write b x h
  · have hfull : cb_dataSize b = b.size - 1 := by
      have := cb_dataSize_lt b h
      have h1 := h.1
      omega
    cases how : b.overwrite
    · rw [insert_full_no_ow_eq b x h how hfull]
      exact h
    · rw [insert_full_ow_eq b x h how hfull]
      exact wf_write_ow b x h

lemma wf_remove (b : cb) (h : wf b) : wf (cb_remove_ex b).2.1 := by
  by_cases he : b.outIdx = b.inIdx
  · rw [remove_empty_eq b h he]
    exact h
  · rw [remove_nonempty_eq b h he]
    exact wf_advance_out b h

lemma insert_step (b : cb) (x : CbItem) (h : wf b)
    (hnf : cb_dataSize b < b.size - 1) :
    (cb_insert_ex b x).1 = CB_SUCCESS ∧ wf (cb_insert_ex b x).2 ∧
    toList (cb_insert_ex b x).2 = toList b ++ [x] ∧
    cb_dataSize (cb_insert_ex b x).2 = cb_dataSize b + 1 := by
  rw [insert_not_full_eq b x h hnf]
  exact ⟨rfl, wf_write b x h, toList_write b x h hnf, dataSize_write b x h hnf⟩

lemma remove_step (b : cb) (h : wf b) (hne : 1 ≤ cb_dataSize b) :
    (cb_remove_ex b).1 = CB_SUCCESS ∧ wf (cb_remove_ex b).2.1 ∧
    (cb_remove_ex b).2.2 = some ((toList b).headD 0) ∧
    toList (cb_remove_ex b).2.1 = (toList b).tail ∧
    cb_dataSize (cb_remove_ex b).2.1 = cb_dataSize b - 1 := by
  have hne2 : b.outIdx ≠ b.inIdx := by
    intro he
    have := (empty_iff b h).mp he
    omega
  rw [remove_nonempty_eq b h hne2]
  refine ⟨rfl, wf_advance_out b h, ?_, toList_advance_out b h hne,
    dataSize_advance_out b h hne⟩
  rw [toList_headD b h hne]

lemma dataSize_write_ow (b : cb) (x : CbItem) (h : wf b) (h2 : 2 ≤ b.size)
    (hfull : cb_dataSize b = b.size - 1) :
    cb_dataSize { b with buf := b.buf.set b.inIdx x, inIdx := (b.inIdx + 1) % b.size,
                         outIdx := (b.outIdx + 1) % b.size } = b.size - 1 := by
  have hwfe : wf { b with outIdx := (b.outIdx + 1) % b.size } := wf_advance_out b h
  have hde : cb_dataSize { b with outIdx := (b.outIdx + 1) % b.size } = cb_dataSize b - 1 :=
    dataSize_advance_out b h (by omega)
  have hw := dataSize_write { b with outIdx := (b.outIdx + 1) % b.size } x hwfe
    (by rw [hde]; dsimp only; omega)
  rw [hde] at hw
  rw [hw]
  omega

lemma toList_write_ow (b : cb) (x : CbItem) (h : wf b) (h2 : 2 ≤ b.size)
    (hfull : cb_dataSize b = b.size - 1) :
    toList { b with buf := b.buf.set b.inIdx x, inIdx := (b.inIdx + 1) % b.size,
                    outIdx := (b.outIdx + 1) % b.size }
      = (toList b).tail ++ [x] := by
  have hwfe : wf { b with outIdx := (b.outIdx + 1) % b.size } := wf_advance_out b h
  have hde : cb_dataSize { b with outIdx := (b.outIdx + 1) % b.size } = cb_dataSize b - 1 :=
    dataSize_advance_out b h (by omega)
  have hte : toList { b with outIdx := (b.outIdx + 1) % b.size } = (toList b).tail :=
    toList_advance_out b h (by omega)
  have hw := toList_write { b with outIdx := (b.outIdx + 1) % b.size } x hwfe
    (by rw [hde]; dsimp only; omega)
  rw [hte] at hw
  exact hw

/-! ## Agreement of the legacy boolean surface with the result-code surface -/

lemma legacy_insert_eq (b : cb) (x : CbItem) (hs : b.size ≠ 0) :
    legacy.cb_insert b x
      = (decide ((cb_insert_ex b x).1 = CB_SUCCESS), (cb_insert_ex b x).2) := by
  unfold legacy.cb_insert cb_insert_ex
  dsimp only
  rw [if_neg hs]
  split_ifs <;> simp

lemma legacy_remove_eq (b : cb) (hs : b.size ≠ 0) :
    legacy.cb_remove b
      = (decide ((cb_remove_ex b).1 = CB_SUCCESS), (cb_remove_ex b).2) := by
  unfold legacy.cb_remove cb_remove_ex
  dsimp only
  rw [if_neg hs]
  split_ifs <;> simp

lemma legacy_peek_eq (b : cb) (offset : Nat) (hs : b.size ≠ 0) :
    legacy.cb_peek b offset
      = (decide ((cb_peek_ex b offset).1 = CB_SUCCESS), (cb_peek_ex b offset).2.2) := by
  unfold legacy.cb_peek cb_peek_ex
  dsimp only
  rw [if_neg hs]
  split_ifs <;> simp

lemma insert_seq_spec (es : List CbItem) : ∀ b : cb, wf b → b.overwrite = false →
    cb_dataSize b + es.length ≤ b.size - 1 →
    (cb_insert_seq b es).1 = true ∧ wf (cb_insert_seq b es).2 ∧
    toList (cb_insert_seq b es).2 = toList b ++ es ∧
    (cb_insert_seq b es).2.size = b.size ∧
    (cb_insert_seq b es).2.overwrite = false ∧
    cb_dataSize (cb_insert_seq b es).2 = cb_dataSize b + es.length := by
  induction es with
  | nil =>
    intro b hwf how _
    exact ⟨rfl, hwf, by simp [cb_insert_seq], rfl, how, rfl⟩
  | cons e es ih =>
    intro b hwf how hcap
    have hnf : cb_dataSize b < b.size - 1 := by
      simp only [List.length_cons] at hcap
      omega
    obtain ⟨hs, hw2, ht, hd⟩ := insert_step b e hwf hnf
    have hsz := insert_size b e
    have hov := insert_overwrite b e
    have hbr := legacy_insert_eq b e (by have := hwf.1; omega)
    obtain ⟨ih1, ih2, ih3, ih4, ih5, ih6⟩ :=
      ih (cb_insert_ex b e).2 hw2 (by rw [hov]; exact how)
        (by rw [hd, hsz]; simp only [List.length_cons] at hcap; omega)
    simp only [cb_insert_seq, hbr]
    refine ⟨?_, ih2, ?_, ?_, ih5, ?_⟩
    · rw [hs]; simp [ih1]
    · rw [ih3, ht]; simp
    · rw [ih4, hsz]
    · rw [ih6, hd]; simp only [List.length_cons]; omega

lemma remove_seq_spec (n : Nat) : ∀ b : cb, wf b → n ≤ cb_dataSize b →
    (cb_remove_seq b n).1 = ((toList b).take n).map some ∧
    wf (cb_remove_seq b n).2.1 ∧
    toList (cb_remove_seq b n).2.1 = (toList b).drop n ∧
    (cb_remove_seq b n).2.2 = true ∧
    (cb_remove_seq b n).2.1.size = b.size ∧
    cb_dataSize (cb_remove_seq b n).2.1 = cb_dataSize b - n := by
  induction n with
  | zero =>
    intro b hwf _
    exact ⟨rfl, hwf, rfl, rfl, rfl, rfl⟩
  | succ n ih =>
    intro b hwf hn
    have hne : 1 ≤ cb_dataSize b := by omega
    obtain ⟨hs, hw2, hout, ht, hd⟩ := remove_step b hwf hne
    have hsz := remove_size b
    have hbr := legacy_remove_eq b (by have := hwf.1; omega)
    obtain ⟨y, t, hyt⟩ : ∃ y t, toList b = y :: t := by
      cases hl : toList b with
      | nil =>
        exfalso
        have := toList_length b
        rw [hl] at this
        simp at this
        omega
      | cons y t => exact ⟨y, t, rfl⟩
    obtain ⟨ih1, ih2, ih3, ih4, ih5, ih6⟩ :=
      ih (cb_remove_ex b).2.1 hw2 (by rw [hd]; omega)
    simp only [cb_remove_seq, hbr]
    refine ⟨?_, ih2, ?_, ?_, ?_, ?_⟩
    · rw [hout, ih1, ht, hyt]
      simp
    · rw [ih3, ht, hyt]
      simp
    · rw [hs]; simp [ih4]
    · rw [ih5, hsz]
    · rw [ih6, hd]; omega

lemma wf_insert_bulk_loop (items : List CbItem) (ow : Bool) :
    ∀ fuel k b, wf b → wf (cb_insert_bulk_loop items ow b k fuel).1 := by
  intro fuel
  induction fuel with
  | zero => intro k b hwf; exact hwf
  | succ fuel ih =>
    intro k b hwf
    simp only [cb_insert_bulk_loop]
    split_ifs
    · exact ih (k + 1) _ (wf_insert b _ hwf)
    · exact wf_insert b _ hwf
    · exact wf_insert b _ hwf

lemma wf_remove_bulk_loop :
    ∀ fuel acc b, wf b → wf (cb_remove_bulk_loop b acc fuel).1 := by
  intro fuel
  induction fuel with
  | zero => intro acc b hwf; exact hwf
  | succ fuel ih =>
    intro acc b hwf
    simp only [cb_remove_bulk_loop]
    split_ifs
    · exact ih _ _ (wf_remove b hwf)
    · exact wf_remove b hwf
    · exact wf_remove b hwf

lemma wf_applyOp (b : cb) (op : CbOp) (h : wf b) : wf (applyOp b op) := by
  cases op with
  | opInsert x => exact wf_insert b x h
  | opRemove => exact wf_remove b h
  | opPeek offset => rw [applyOp, peek_state]; exact h
  | opInsertBulk items count =>
    simp only [applyOp, cb_insert_bulk_ex]
    split_ifs
    · exact h
    · exact h
    · exact wf_insert_bulk_loop items b.overwrite count 0 b h
    · exact wf_insert_bulk_loop items b.overwrite count 0 b h
  | opRemoveBulk count =>
    simp only [applyOp, cb_remove_bulk_ex]
    split_ifs
    · exact h
    · exact h
    · exact wf_remove_bulk_loop count [] b h
    · exact wf_remove_bulk_loop count [] b h
  | opSetOverwrite e =>
    obtain ⟨h1, h2, h3, h4⟩ := h
    exact ⟨h1, h2, h3, h4⟩

lemma wf_runOps (ops : List CbOp) : ∀ b : cb, wf b → wf (runOps b ops) := by
  induction ops with
  | nil => intro b h; exact h
  | cons op ops ih =>
    intro b h
    exact ih (applyOp b op) (wf_applyOp b op h)

lemma sanity_of_wf (b : cb) (h : wf b) : cb_sanity_check b = true := by
  have hlt := cb_dataSize_lt b h
  obtain ⟨h1, h2, h3, h4⟩ := h
  unfold cb_sanity_check
  unfold cb_dataSize at hlt
  dsimp only
  split_ifs at * <;> first | rfl | omega

lemma bulk_loop_eq (items : List CbItem) (ow : Bool) :
    ∀ fuel k b, k + fuel ≤ items.length →
      (cb_insert_bulk_loop items ow b k fuel).1
          = (insertOneByOne b ((items.drop k).take fuel)).1 ∧
      (cb_insert_bulk_loop items ow b k fuel).2.1
          = k + (insertOneByOne b ((items.drop k).take fuel)).2 := by
  intro fuel
  induction fuel with
  | zero => intro k b _; exact ⟨rfl, rfl⟩
  | succ fuel ih =>
    intro k b hk
    have hklt : k < items.length := by omega
    have hdrop : items.drop k = items.getD k 0 :: items.drop (k + 1) := by
      rw [List.drop_eq_getElem_cons hklt]
      congr 1
      simp [List.getD_eq_getElem?_getD, List.getElem?_eq_getElem hklt]
    rw [hdrop, List.take_succ_cons]
    simp only [cb_insert_bulk_loop, insertOneByOne]
    by_cases hs : (cb_insert_ex b (items.getD k 0)).1 = CB_SUCCESS
    · rw [if_pos hs, if_pos hs]
      obtain ⟨e1, e2⟩ := ih (k + 1) (cb_insert_ex b (items.getD k 0)).2 (by omega)
      constructor
      · dsimp only
        exact e1
      · dsimp only
        rw [e2]
        omega
    · rw [if_neg hs, if_neg hs]
      split_ifs <;> exact ⟨rfl, by dsimp only; omega⟩

lemma insert_bulk_ex_eq (b : cb) (items : List CbItem) :
    (cb_insert_bulk_ex b items items.length).2.1 = (insertOneByOne b items).1 ∧
    (cb_insert_bulk_ex b items items.length).2.2 = (insertOneByOne b items).2 := by
  by_cases hz : b.size = 0
  · cases items with
    | nil => constructor <;> simp [cb_insert_bulk_ex, hz, insertOneByOne]
    | cons e es =>
      constructor <;> simp [cb_insert_bulk_ex, hz, insertOneByOne, cb_insert_ex]
  · by_cases hc : items.length = 0
    · rw [List.length_eq_zero] at hc
      subst hc
      constructor <;> simp [cb_insert_bulk_ex, hz, insertOneByOne]
    · unfold cb_insert_bulk_ex
      rw [if_neg hz, if_neg hc]
      obtain ⟨e1, e2⟩ := bulk_loop_eq items b.overwrite items.length 0 b (by omega)
      simp only [List.drop_zero, List.take_length] at e1 e2
      dsimp only
      split_ifs <;> exact ⟨e1, by dsimp only; rw [e2]; omega⟩

lemma insert_ow_succeeds (b : cb) (x : CbItem) (h : wf b) (how : b.overwrite = true) :
    (cb_insert_ex b x).1 = CB_SUCCESS := by
  rcases Nat.lt_or_ge (cb_dataSize b) (b.size - 1) with hnf | hf
  · rw [insert_not_full_eq b x h hnf]
  · have hfull : cb_dataSize b = b.size - 1 := by
      have := cb_dataSize_lt b h
      have h1 := h.1
      omega
    rw [insert_full_ow_eq b x h how hfull]

lemma insertOneByOne_ow_all (es : List CbItem) : ∀ b : cb, wf b →
    b.overwrite = true → (insertOneByOne b es).2 = es.length := by
  induction es with
  | nil => intro b _ _; rfl
  | cons e es ih =>
    intro b hwf how
    have hs := insert_ow_succeeds b e hwf how
    simp only [insertOneByOne, if_pos hs, List.length_cons]
    rw [ih (cb_insert_ex b e).2 (wf_insert b e hwf)
      (by rw [insert_overwrite]; exact how)]

/-! ## Timeout-variant control flow -/

lemma insert_timeout_other (b : cb) (x : CbItem) (t : Nat)
    (h2 : (cb_insert_ex b x).1 ≠ CB_ERROR_BUFFER_FULL) :
    cb_insert_timeout_ex b x t = cb_insert_ex b x := by
  unfold cb_insert_timeout_ex
  dsimp only
  rw [if_pos (Or.inr (Or.inr h2))]

lemma remove_timeout_other (b : cb) (t : Nat)
    (h2 : (cb_remove_ex b).1 ≠ CB_ERROR_BUFFER_EMPTY) :
    cb_remove_timeout_ex b t = cb_remove_ex b := by
  unfold cb_remove_timeout_ex
  dsimp only
  rw [if_pos (Or.inr (Or.inr h2))]

lemma insert_timeout_loop_full (x : CbItem) : ∀ t (b : cb), wf b →
    b.overwrite = false → cb_dataSize b = b.size - 1 →
    cb_insert_timeout_loop x b t = (CB_ERROR_TIMEOUT, b) := by
  intro t
  induction t with
  | zero => intro b _ _ _; rfl
  | succ t ih =>
    intro b hwf how hfull
    simp only [cb_insert_timeout_loop, insert_full_no_ow_eq b x hwf how hfull]
    rw [if_neg (by simp)]
    exact ih b hwf how hfull

lemma insert_timeout_full (b : cb) (x : CbItem) (t : Nat) (h : wf b)
    (how : b.overwrite = false) (hfull : cb_dataSize b = b.size - 1)
    (ht : 1 ≤ t) :
    cb_insert_timeout_ex b x t = (CB_ERROR_TIMEOUT, b) := by
  unfold cb_insert_timeout_ex
  dsimp only
  rw [insert_full_no_ow_eq b x h how hfull]
  rw [if_neg (by simp; omega)]
  exact insert_timeout_loop_full x t b h how hfull

lemma remove_timeout_loop_empty : ∀ t (b : cb), wf b → b.outIdx = b.inIdx →
    cb_remove_timeout_loop b t = (CB_ERROR_TIMEOUT, b, none) := by
  intro t
  induction t with
  | zero => intro b _ _; rfl
  | succ t ih =>
    intro b hwf he
    simp only [cb_remove_timeout_loop, remove_empty_eq b hwf he]
    rw [if_neg (by simp)]
    exact ih b hwf he

lemma remove_timeout_empty (b : cb) (t : Nat) (h : wf b)
    (he : b.outIdx = b.inIdx) (ht : 1 ≤ t) :
    cb_remove_timeout_ex b t = (CB_ERROR_TIMEOUT, b, none) := by
  unfold cb_remove_timeout_ex
  dsimp only
  rw [remove_empty_eq b h he]
  rw [if_neg (by simp; omega)]
  exact remove_timeout_loop_empty t b h he

lemma tail_append_headD (y x : CbItem) (t : List CbItem) :
    ((y :: t).tail ++ [x]).headD 0 = ((y :: t) ++ [x]).getD 1 0 := by
  cases t <;> simp [List.getD]

/-! ## Capacity preservation across operations -/

lemma size_insert_bulk_loop (items : List CbItem) (ow : Bool) :
    ∀ fuel k b, (cb_insert_bulk_loop items ow b k fuel).1.size = b.size := by
  intro fuel
  induction fuel with
  | zero => intro k b; rfl
  | succ fuel ih =>
    intro k b
    simp only [cb_insert_bulk_loop]
    split_ifs
    · rw [ih (k + 1) _, insert_size]
    · exact insert_size b _
    · exact insert_size b _

lemma size_remove_bulk_loop :
    ∀ fuel acc b, (cb_remove_bulk_loop b acc fuel).1.size = b.size := by
  intro fuel
  induction fuel with
  | zero => intro acc b; rfl
  | succ fuel ih =>
    intro acc b
    simp only [cb_remove_bulk_loop]
    split_ifs
    · rw [ih _ _, remove_size]
    · exact remove_size b
    · exact remove_size b

lemma size_applyOp (b : cb) (op : CbOp) : (applyOp b op).size = b.size := by
  cases op with
  | opInsert x => exact insert_size b x
  | opRemove => exact remove_size b
  | opPeek offset => rw [applyOp, peek_state]
  | opInsertBulk items count =>
    simp only [applyOp, cb_insert_bulk_ex]
    split_ifs
    · rfl
    · rfl
    · exact size_insert_bulk_loop items b.overwrite count 0 b
    · exact size_insert_bulk_loop items b.overwrite count 0 b
  | opRemoveBulk count =>
    simp only [applyOp, cb_remove_bulk_ex]
    split_ifs
    · rfl
    · rfl
    · exact size_remove_bulk_loop count [] b
    · exact size_remove_bulk_loop count [] b
  | opSetOverwrite e => rfl

lemma size_runOps (ops : List CbOp) : ∀ b : cb, (runOps b ops).size = b.size := by
  induction ops with
  | nil => intro b; rfl
  | cons op ops ih =>
    intro b
    rw [runOps, List.foldl_cons]
    have := ih (applyOp b op)
    rw [runOps] at this
    rw [this, size_applyOp]

lemma wf_init (storage : List CbItem) (N : Nat) (hN : 1 ≤ N)
    (hlen : storage.length = N) : wf (cb_init_ex storage N).2 := by
  unfold cb_init_ex
  rw [if_neg (by omega)]
  exact ⟨hN, hN, hN, hlen⟩

/-! ## Claim theorems -/

/-- C1: for a buffer of capacity at least 2 with overwrite disabled,
starting empty, a sequence of `k = es.length` legacy `cb_insert` calls
(all of which succeed, which the capacity bound `k ≤ capacity - 1`
guarantees, and during which no overwrite-eviction can occur since
overwrite is disabled) followed by `k` legacy `cb_remove` calls yields
exactly `e1, ..., ek` in insertion order, with every remove
succeeding. -/
theorem C1_fifo_order (b : cb) (es : List CbItem) (h : wf b) (h2 : 2 ≤ b.size)
    (how : b.overwrite = false) (hemp : cb_dataSize b = 0)
    (hcap : es.length ≤ b.size - 1) :
    (cb_insert_seq b es).1 = true ∧
    (cb_remove_seq (cb_insert_seq b es).2 es.length).2.2 = true ∧
    (cb_remove_seq (cb_insert_seq b es).2 es.length).1 = es.map some := by
  obtain ⟨i1, i2, i3, i4, i5, i6⟩ := insert_seq_spec es b h how (by omega)
  have htl : toList b = [] := by
    have hl := toList_length b
    rw [hemp] at hl
    exact List.length_eq_zero.mp hl
  rw [htl, List.nil_append] at i3
  obtain ⟨r1, r2, r3, r4, r5, r6⟩ :=
    remove_seq_spec es.length (cb_insert_seq b es).2 i2 (by rw [i6, hemp]; omega)
  refine ⟨i1, r4, ?_⟩
  rw [r1, i3, List.take_length]

/-- C2: starting from a buffer initialized with capacity `N ≥ 1`, after
any sequence of completed operations (single insert/remove, peek, bulk
insert/remove, toggling overwrite) both cursors are below `N`, the
derived occupancy is at most `N - 1` (so at most `N - 1` items are ever
held), the sanity check passes, and once occupancy reaches `N - 1` with
overwrite disabled the next insert reports the buffer full. -/
theorem C2_index_invariant (storage : List CbItem) (N : Nat) (hN : 1 ≤ N)
    (hlen : storage.length = N) (ops : List CbOp) (x : CbItem) :
    (runOps (cb_init_ex storage N).2 ops).inIdx < N ∧
    (runOps (cb_init_ex storage N).2 ops).outIdx < N ∧
    cb_dataSize (runOps (cb_init_ex storage N).2 ops) ≤ N - 1 ∧
    cb_sanity_check (runOps (cb_init_ex storage N).2 ops) = true ∧
    ((runOps (cb_init_ex storage N).2 ops).overwrite = false →
      cb_dataSize (runOps (cb_init_ex storage N).2 ops) = N - 1 →
      (cb_insert_ex (runOps (cb_init_ex storage N).2 ops) x).1
        = CB_ERROR_BUFFER_FULL) := by
  have hinit := wf_init storage N hN hlen
  have hw := wf_runOps ops _ hinit
  have hsz : (runOps (cb_init_ex storage N).2 ops).size = N := by
    rw [size_runOps]
    unfold cb_init_ex
    rw [if_neg (by omega)]
  have hlt := cb_dataSize_lt _ hw
  refine ⟨?_, ?_, ?_, sanity_of_wf _ hw, ?_⟩
  · have hb := hw.2.1
    rw [hsz] at hb
    exact hb
  · have hb := hw.2.2.1
    rw [hsz] at hb
    exact hb
  · omega
  · intro how hfull
    rw [insert_full_no_ow_eq _ x hw how (by omega)]

/-- C3: with capacity at least 2, overwrite enabled and the buffer full
(occupancy `capacity - 1`), insert succeeds, the read cursor advances to
`(readIndex + 1) mod capacity` (the oldest unread element is dropped),
occupancy stays at `capacity - 1`, the contents become the old contents
minus their head plus the new item, and the next remove yields the
second-oldest element of the pre-insert buffer (position 1 of the old
contents extended by the new item). -/
theorem C3_overwrite_eviction (b : cb) (x : CbItem) (h : wf b)
    (h2 : 2 ≤ b.size) (how : b.overwrite = true)
    (hfull : cb_dataSize b = b.size - 1) :
    (cb_insert_ex b x).1 = CB_SUCCESS ∧
    (cb_insert_ex b x).2.outIdx = (b.outIdx + 1) % b.size ∧
    cb_dataSize (cb_insert_ex b x).2 = b.size - 1 ∧
    toList (cb_insert_ex b x).2 = (toList b).tail ++ [x] ∧
    (cb_remove_ex (cb_insert_ex b x).2).2.2
      = some ((toList b ++ [x]).getD 1 0) := by
  obtain ⟨y, t, hyt⟩ : ∃ y t, toList b = y :: t := by
    cases hl : toList b with
    | nil =>
      exfalso
      have := toList_length b
      rw [hl] at this
      simp at this
      omega
    | cons y t => exact ⟨y, t, rfl⟩
  rw [insert_full_ow_eq b x h how hfull]
  have hwb' := wf_write_ow b x h
  have hdb' := dataSize_write_ow b x h h2 hfull
  have htb' := toList_write_ow b x h h2 hfull
  obtain ⟨_, _, hout, _, _⟩ := remove_step _ hwb' (by rw [hdb']; omega)
  refine ⟨rfl, rfl, hdb', htb', ?_⟩
  rw [hout, htb', hyt, tail_append_headD]

/-- C4: on a well-formed buffer, insert on a full buffer with overwrite
disabled fails with the buffer-full code and returns the state
unchanged (the element is discarded), and remove on an empty buffer
(`readIndex == writeIndex`) fails with the buffer-empty code, leaves
the state unchanged and writes nothing to the output location. -/
theorem C4_failure_no_mutation (b : cb) (x : CbItem) (h : wf b) :
    (b.overwrite = false → cb_dataSize b = b.size - 1 →
      cb_insert_ex b x = (CB_ERROR_BUFFER_FULL, b)) ∧
    (b.outIdx = b.inIdx → cb_remove_ex b = (CB_ERROR_BUFFER_EMPTY, b, none)) := by
  exact ⟨fun how hfull => insert_full_no_ow_eq b x h how hfull,
    fun he => remove_empty_eq b h he⟩

/-- C5: for any in-range cursor pair on a buffer of positive capacity,
the occupancy is the wrap-aware cursor difference, the free count is
`capacity - 1 - occupied`, and the two always sum to `capacity - 1`. -/
theorem C5_occupancy_formulas (b : cb) (h1 : 1 ≤ b.size)
    (h2 : b.inIdx < b.size) (h3 : b.outIdx < b.size) :
    cb_dataSize b = (if b.inIdx ≥ b.outIdx then b.inIdx - b.outIdx
                     else b.size - b.outIdx + b.inIdx) ∧
    cb_freeSpace b = b.size - 1 - cb_dataSize b ∧
    cb_freeSpace b + cb_dataSize b = b.size - 1 := by
  refine ⟨?_, ?_, ?_⟩
  · unfold cb_dataSize
    split_ifs <;> omega
  · unfold cb_freeSpace cb_dataSize
    split_ifs <;> omega
  · unfold cb_freeSpace cb_dataSize
    split_ifs <;> omega

/-- C6: a buffer whose capacity is zero (as produced by `cb_init_ex`
with length 0) deterministically rejects every insert, remove and peek
with the invalid-size code while leaving state and output untouched,
and reports both free and occupied space as 0; initialization itself
reports invalid size. -/
theorem C6_zero_capacity (b : cb) (x : CbItem) (offset : Nat)
    (storage : List CbItem) (hz : b.size = 0) :
    (cb_init_ex storage 0).1 = CB_ERROR_INVALID_SIZE ∧
    (cb_init_ex storage 0).2.size = 0 ∧
    cb_insert_ex b x = (CB_ERROR_INVALID_SIZE, b) ∧
    cb_remove_ex b = (CB_ERROR_INVALID_SIZE, b, none) ∧
    cb_peek_ex b offset = (CB_ERROR_INVALID_SIZE, b, none) ∧
    cb_freeSpace b = 0 ∧ cb_dataSize b = 0 := by
  refine ⟨rfl, rfl, ?_, ?_, ?_, ?_, ?_⟩ <;>
    simp [cb_insert_ex, cb_remove_ex, cb_peek_ex, cb_freeSpace, cb_dataSize, hz]

/-- C7: on a well-formed buffer, peek fails with the invalid-offset
code exactly when the offset is not below the occupancy; for a valid
offset it returns `storage[(readIndex + offset) mod capacity]`; and it
never changes the state, the occupancy, or the result of a subsequent
remove. -/
theorem C7_peek_semantics (b : cb) (offset : Nat) (h : wf b) :
    ((cb_peek_ex b offset).1 = CB_ERROR_INVALID_OFFSET ↔ cb_dataSize b ≤ offset) ∧
    (offset < cb_dataSize b →
      cb_peek_ex b offset
        = (CB_SUCCESS, b, some (b.buf.getD ((b.outIdx + offset) % b.size) 0))) ∧
    (cb_peek_ex b offset).2.1 = b ∧
    cb_remove_ex (cb_peek_ex b offset).2.1 = cb_remove_ex b ∧
    cb_dataSize (cb_peek_ex b offset).2.1 = cb_dataSize b := by
  have hz : ¬(b.size = 0) := by have := h.1; omega
  have hav : (if b.inIdx ≥ b.outIdx then b.inIdx - b.outIdx
              else b.size - b.outIdx + b.inIdx) = cb_dataSize b := by
    unfold cb_dataSize
    rw [if_neg hz]
  refine ⟨?_, ?_, peek_state b offset, by rw [peek_state], by rw [peek_state]⟩
  · unfold cb_peek_ex
    dsimp only
    rw [if_neg hz, hav]
    by_cases hoff : cb_dataSize b ≤ offset
    · rw [if_pos hoff]
      simp [hoff]
    · rw [if_neg hoff]
      simp [hoff]
  · intro hoff
    unfold cb_peek_ex
    dsimp only
    rw [if_neg hz, hav, if_neg (by omega)]

/-- C8: bulk insert over an item array is exactly the sequential
application of single-element insert, stopping at the first failure:
for `count = items.length` the final state and the reported transfer
count of `cb_insert_bulk_ex` coincide with those of the one-by-one
reference `insertOneByOne`; and with overwrite enabled on a well-formed
buffer the transfer count is always the full `items.length` (it never
stops early due to fullness). -/
theorem C8_bulk_is_sequential (b : cb) (items : List CbItem) :
    (cb_insert_bulk_ex b items items.length).2.1 = (insertOneByOne b items).1 ∧
    (cb_insert_bulk_ex b items items.length).2.2 = (insertOneByOne b items).2 ∧
    (wf b → b.overwrite = true →
      (cb_insert_bulk_ex b items items.length).2.2 = items.length) := by
  obtain ⟨e1, e2⟩ := insert_bulk_ex_eq b items
  refine ⟨e1, e2, ?_⟩
  intro hwf how
  rw [e2]
  exact insertOneByOne_ow_all items b hwf how

/-- C9: the bounded-wait variants retry only on the expected failure:
if the immediate attempt does not report buffer-full (for insert) or
buffer-empty (for remove) — whether it succeeded or failed for any
other reason — the timeout variant returns that immediate result with
no retry; and when the buffer stays full (overwrite off) or stays
empty for the whole positive budget, the reported result is the
distinct timeout code, not buffer-full or buffer-empty. -/
theorem C9_timeout_control (b : cb) (x : CbItem) (t : Nat) :
    ((cb_insert_ex b x).1 ≠ CB_ERROR_BUFFER_FULL →
      cb_insert_timeout_ex b x t = cb_insert_ex b x) ∧
    ((cb_remove_ex b).1 ≠ CB_ERROR_BUFFER_EMPTY →
      cb_remove_timeout_ex b t = cb_remove_ex b) ∧
    (wf b → b.overwrite = false → cb_dataSize b = b.size - 1 → 1 ≤ t →
      cb_insert_timeout_ex b x t = (CB_ERROR_TIMEOUT, b)) ∧
    (wf b → b.outIdx = b.inIdx → 1 ≤ t →
      cb_remove_timeout_ex b t = (CB_ERROR_TIMEOUT, b, none)) ∧
    CB_ERROR_TIMEOUT ≠ CB_ERROR_BUFFER_FULL ∧
    CB_ERROR_TIMEOUT ≠ CB_ERROR_BUFFER_EMPTY := by
  refine ⟨insert_timeout_other b x t, remove_timeout_other b t, ?_, ?_,
    by decide, by decide⟩
  · intro hwf how hfull ht
    exact insert_timeout_full b x t hwf how hfull ht
  · intro hwf he ht
    exact remove_timeout_empty b t hwf he ht

/-- C10: for any buffer of positive capacity and any starting state,
the legacy boolean operations and the enhanced result-code operations
agree: legacy `cb_insert` returns true exactly when `cb_insert_ex`
returns success and both leave the same final state, and likewise for
`cb_remove` including the removed item. -/
theorem C10_legacy_agrees_with_ex (b : cb) (x : CbItem) (h : 1 ≤ b.size) :
    ((legacy.cb_insert b x).1 = true ↔ (cb_insert_ex b x).1 = CB_SUCCESS) ∧
    (legacy.cb_insert b x).2 = (cb_insert_ex b x).2 ∧
    ((legacy.cb_remove b).1 = true ↔ (cb_remove_ex b).1 = CB_SUCCESS) ∧
    (legacy.cb_remove b).2.1 = (cb_remove_ex b).2.1 ∧
    (legacy.cb_remove b).2.2 = (cb_remove_ex b).2.2 := by
  rw [legacy_insert_eq b x (by omega), legacy_remove_eq b (by omega)]
  refine ⟨?_, rfl, ?_, rfl, rfl⟩ <;> simp

/-! ## Witnesses -/

/-- Witness for C1 at a concrete capacity-3 buffer and items `[7, 8]`. -/
theorem C1_fifo_order_witness :
    wf bufA ∧ 2 ≤ bufA.size ∧ bufA.overwrite = false ∧ cb_dataSize bufA = 0 ∧
    ([7, 8] : List CbItem).length ≤ bufA.size - 1 ∧
    ((cb_insert_seq bufA [7, 8]).1 = true ∧
     (cb_remove_seq (cb_insert_seq bufA [7, 8]).2 ([7, 8] : List CbItem).length).2.2 = true ∧
     (cb_remove_seq (cb_insert_seq bufA [7, 8]).2 ([7, 8] : List CbItem).length).1
        = ([7, 8] : List CbItem).map some) :=
  ⟨by decide, by decide, by decide, by decide, by decide,
   C1_fifo_order bufA [7, 8] (by decide) (by decide) (by decide) (by decide) (by decide)⟩

/-- Witness for C2 at capacity 3 with a mixed operation sequence. -/
theorem C2_index_invariant_witness :
    1 ≤ 3 ∧ ([0, 0, 0] : List CbItem).length = 3 ∧
    ((runOps (cb_init_ex [0, 0, 0] 3).2 opsW).inIdx < 3 ∧
     (runOps (cb_init_ex [0, 0, 0] 3).2 opsW).outIdx < 3 ∧
     cb_dataSize (runOps (cb_init_ex [0, 0, 0] 3).2 opsW) ≤ 3 - 1 ∧
     cb_sanity_check (runOps (cb_init_ex [0, 0, 0] 3).2 opsW) = true ∧
     ((runOps (cb_init_ex [0, 0, 0] 3).2 opsW).overwrite = false →
       cb_dataSize (runOps (cb_init_ex [0, 0, 0] 3).2 opsW) = 3 - 1 →
       (cb_insert_ex (runOps (cb_init_ex [0, 0, 0] 3).2 opsW) 9).1
         = CB_ERROR_BUFFER_FULL)) :=
  ⟨by decide, by decide, C2_index_invariant [0, 0, 0] 3 (by decide) (by decide) opsW 9⟩

/-- Witness for C3: capacity 8 filled with 0..6, inserting 99 makes the
next remove yield 1 (the second-oldest), not 0. -/
theorem C3_overwrite_eviction_witness :
    wf bufF8 ∧ 2 ≤ bufF8.size ∧ bufF8.overwrite = true ∧
    cb_dataSize bufF8 = bufF8.size - 1 ∧
    (toList bufF8 ++ [99]).getD 1 0 = 1 ∧
    ((cb_insert_ex bufF8 99).1 = CB_SUCCESS ∧
     (cb_insert_ex bufF8 99).2.outIdx = (bufF8.outIdx + 1) % bufF8.size ∧
     cb_dataSize (cb_insert_ex bufF8 99).2 = bufF8.size - 1 ∧
     toList (cb_insert_ex bufF8 99).2 = (toList bufF8).tail ++ [99] ∧
     (cb_remove_ex (cb_insert_ex bufF8 99).2).2.2
        = some ((toList bufF8 ++ [99]).getD 1 0)) :=
  ⟨by decide, by decide, by decide, by decide, by decide,
   C3_overwrite_eviction bufF8 99 (by decide) (by decide) (by decide) (by decide)⟩

/-- Witness for C4 at a capacity-1 buffer, which is at once full and
empty. -/
theorem C4_failure_no_mutation_witness :
    wf bufOne ∧
    ((bufOne.overwrite = false → cb_dataSize bufOne = bufOne.size - 1 →
        cb_insert_ex bufOne 5 = (CB_ERROR_BUFFER_FULL, bufOne)) ∧
     (bufOne.outIdx = bufOne.inIdx →
        cb_remove_ex bufOne = (CB_ERROR_BUFFER_EMPTY, bufOne, none))) :=
  ⟨by decide, C4_failure_no_mutation bufOne 5 (by decide)⟩

/-- Witness for C5 at a wrapped cursor pair. -/
theorem C5_occupancy_formulas_witness :
    1 ≤ bufFour.size ∧ bufFour.inIdx < bufFour.size ∧ bufFour.outIdx < bufFour.size ∧
    (cb_dataSize bufFour
        = (if bufFour.inIdx ≥ bufFour.outIdx then bufFour.inIdx - bufFour.outIdx
           else bufFour.size - bufFour.outIdx + bufFour.inIdx) ∧
     cb_freeSpace bufFour = bufFour.size - 1 - cb_dataSize bufFour ∧
     cb_freeSpace bufFour + cb_dataSize bufFour = bufFour.size - 1) :=
  ⟨by decide, by decide, by decide,
   C5_occupancy_formulas bufFour (by decide) (by decide) (by decide)⟩

/-- Witness for C6 at the degenerate capacity-0 buffer. -/
theorem C6_zero_capacity_witness :
    bufZero.size = 0 ∧
    ((cb_init_ex [] 0).1 = CB_ERROR_INVALID_SIZE ∧
     (cb_init_ex [] 0).2.size = 0 ∧
     cb_insert_ex bufZero 1 = (CB_ERROR_INVALID_SIZE, bufZero) ∧
     cb_remove_ex bufZero = (CB_ERROR_INVALID_SIZE, bufZero, none) ∧
     cb_peek_ex bufZero 0 = (CB_ERROR_INVALID_SIZE, bufZero, none) ∧
     cb_freeSpace bufZero = 0 ∧ cb_dataSize bufZero = 0) :=
  ⟨by decide, C6_zero_capacity bufZero 1 0 [] (by decide)⟩

/-- Witness for C7 at offset 0 on a buffer holding one element. -/
theorem C7_peek_semantics_witness :
    wf bufFour ∧
    (((cb_peek_ex bufFour 0).1 = CB_ERROR_INVALID_OFFSET ↔ cb_dataSize bufFour ≤ 0) ∧
     (0 < cb_dataSize bufFour →
       cb_peek_ex bufFour 0
         = (CB_SUCCESS, bufFour,
            some (bufFour.buf.getD ((bufFour.outIdx + 0) % bufFour.size) 0))) ∧
     (cb_peek_ex bufFour 0).2.1 = bufFour ∧
     cb_remove_ex (cb_peek_ex bufFour 0).2.1 = cb_remove_ex bufFour ∧
     cb_dataSize (cb_peek_ex bufFour 0).2.1 = cb_dataSize bufFour) :=
  ⟨by decide, C7_peek_semantics bufFour 0 (by decide)⟩

/-- Witness for C8: a fresh capacity-5 buffer bulk-inserting
`[10, 20, 30, 40, 50]` transfers 4 items and holds `[10, 20, 30, 40]`. -/
theorem C8_bulk_is_sequential_witness :
    (cb_insert_bulk_ex bufFive [10, 20, 30, 40, 50]
        ([10, 20, 30, 40, 50] : List CbItem).length).2.2 = 4 ∧
    toList (cb_insert_bulk_ex bufFive [10, 20, 30, 40, 50]
        ([10, 20, 30, 40, 50] : List CbItem).length).2.1 = [10, 20, 30, 40] ∧
    ((cb_insert_bulk_ex bufFive [10, 20, 30, 40, 50]
        ([10, 20, 30, 40, 50] : List CbItem).length).2.1
      = (insertOneByOne bufFive [10, 20, 30, 40, 50]).1 ∧
     (cb_insert_bulk_ex bufFive [10, 20, 30, 40, 50]
        ([10, 20, 30, 40, 50] : List CbItem).length).2.2
      = (insertOneByOne bufFive [10, 20, 30, 40, 50]).2 ∧
     (wf bufFive → bufFive.overwrite = true →
       (cb_insert_bulk_ex bufFive [10, 20, 30, 40, 50]
          ([10, 20, 30, 40, 50] : List CbItem).length).2.2
         = ([10, 20, 30, 40, 50] : List CbItem).length)) :=
  ⟨by decide, by decide, C8_bulk_is_sequential bufFive [10, 20, 30, 40, 50]⟩

/-- Witness for C9 at a capacity-1 buffer (permanently full and empty)
with a 3 ms budget: both bounded-wait variants report the timeout
code. -/
theorem C9_timeout_control_witness :
    (((cb_insert_ex bufOne 5).1 ≠ CB_ERROR_BUFFER_FULL →
       cb_insert_timeout_ex bufOne 5 3 = cb_insert_ex bufOne 5) ∧
     ((cb_remove_ex bufOne).1 ≠ CB_ERROR_BUFFER_EMPTY →
       cb_remove_timeout_ex bufOne 3 = cb_remove_ex bufOne) ∧
     (wf bufOne → bufOne.overwrite = false →
       cb_dataSize bufOne = bufOne.size - 1 → 1 ≤ 3 →
       cb_insert_timeout_ex bufOne 5 3 = (CB_ERROR_TIMEOUT, bufOne)) ∧
     (wf bufOne → bufOne.outIdx = bufOne.inIdx → 1 ≤ 3 →
       cb_remove_timeout_ex bufOne 3 = (CB_ERROR_TIMEOUT, bufOne, none)) ∧
     CB_ERROR_TIMEOUT ≠ CB_ERROR_BUFFER_FULL ∧
     CB_ERROR_TIMEOUT ≠ CB_ERROR_BUFFER_EMPTY) ∧
    cb_insert_timeout_ex bufOne 5 3 = (CB_ERROR_TIMEOUT, bufOne) ∧
    cb_remove_timeout_ex bufOne 3 = (CB_ERROR_TIMEOUT, bufOne, none) :=
  ⟨C9_timeout_control bufOne 5 3, by decide, by decide⟩

/-- Witness for C10 at a capacity-4 buffer holding one element. -/
theorem C10_legacy_agrees_with_ex_witness :
    1 ≤ bufFour.size ∧
    (((legacy.cb_insert bufFour 3).1 = true ↔ (cb_insert_ex bufFour 3).1 = CB_SUCCESS) ∧
     (legacy.cb_insert bufFour 3).2 = (cb_insert_ex bufFour 3).2 ∧
     ((legacy.cb_remove bufFour).1 = true ↔ (cb_remove_ex bufFour).1 = CB_SUCCESS) ∧
     (legacy.cb_remove bufFour).2.1 = (cb_remove_ex bufFour).2.1 ∧
     (legacy.cb_remove bufFour).2.2 = (cb_remove_ex bufFour).2.2) :=
  ⟨by decide, C10_legacy_agrees_with_ex bufFour 3 (by decide)⟩
